import Mathlib

/-
  Verification development for the autodoc repository.

  Part 1 embeds transport.go: the TransportMarkdownRecorder, its header
  filtering (SkipHeaders), body capture/replay (writeBody) and the
  request/response transcript rendering (recordRequest / recordResponse /
  RoundTrip).

  Part 2 embeds the markdown struct-table renderer (WriteStructTable and
  its helpers writeStructFields / writeStructField / structFieldName /
  structFieldType / structFieldAttributes / structDescription / contains).

  Effects are made explicit: the sink (io.Writer) is a state value, and
  whether each write attempt succeeds is decided by an oracle indexed by
  the attempt number, so that distinct write errors are distinguishable.
-/

namespace Autodoc

/-- Errors of the embedded program.  A write error carries the index of the
failing write attempt so that verbatim propagation is observable. -/
inductive GoError where
  | writeErr (idx : Nat)
  | readErr
  | transportErr
  | unsupportedType (nm : String)
  | elemOfNonStruct
deriving DecidableEq

/-- The sink (io.Writer): the chunks successfully written so far, and the
number of write attempts made.  An external oracle, indexed by the attempt
number, decides whether an attempt succeeds. -/
structure Sink where
  out : List String
  count : Nat
deriving DecidableEq

/-- One write attempt on the sink.  On success the chunk is appended; on
failure the output is unchanged and the sink error for this attempt is
reported.  Either way the attempt counter advances. -/
def Sink.write (ok : Nat → Bool) (s : Sink) (data : String) : Sink × Option GoError :=
  if ok s.count then ({ out := s.out ++ [data], count := s.count + 1 }, none)
  else ({ s with count := s.count + 1 }, some (.writeErr s.count))

/-- A body stream (io.ReadCloser): the bytes it yields when read to the end,
and whether reading it succeeds at all. -/
structure BodyStream where
  content : String
  readOk : Bool
deriving DecidableEq

/-- ioutil.ReadAll on a body stream. -/
def BodyStream.readAll (b : BodyStream) : Except GoError String :=
  if b.readOk then .ok b.content else .error .readErr

/-- TransportMarkdownRecorder.writeBody from transport.go.

Given the body slot (`*io.ReadCloser`, which is nil or a stream), it returns
the sink after the operation, the new value of the body slot, and whether the
original stream was closed (the Close call is the only effect of that line,
so it is recorded as a Boolean event).

Source, line by line: a nil slot does nothing; otherwise ReadAll the stream
(an error aborts with that error); write the bytes to the sink — on a write
failure the source executes `return err` where `err` is the nil error of the
preceding ReadAll, i.e. it reports success without closing or substituting;
on a successful write the original stream is closed and the slot is replaced
by ioutil.NopCloser(strings.NewReader(string(data))). -/
def writeBody (ok : Nat → Bool) (r : Option BodyStream) (s : Sink) :
    Except GoError (Sink × Option BodyStream × Bool) :=
  match r with
  | none => .ok (s, none, false)
  | some b =>
    match b.readAll with
    | .error e => .error e
    | .ok data =>
      match Sink.write ok s data with
      | (s1, some _) => .ok (s1, some b, false)
      | (s1, none) => .ok (s1, some { content := data, readOk := true }, true)

/-- A header collection: names with their value lists, in received order. -/
abbrev Header := List (String × List String)

/-- Lowercase every character of a string (character-wise, which matches
Go's simple case folding on the ASCII header names the recorder sees). -/
def lowerStr (s : String) : String := String.mk (s.data.map Char.toLower)

/-- strings.EqualFold, modelled for ASCII header names as case-insensitive
equality via lowercasing. -/
def equalFold (a b : String) : Bool := lowerStr a == lowerStr b

/-- SkipHeaders.SkipHeaders from transport.go: a fixed list of header names,
matched case-insensitively; the value list is ignored. -/
def SkipHeadersImpl (s : List String) (header : String) (_ : List String) : Bool :=
  s.any fun hdr => equalFold hdr header

/-- TransportMarkdownRecorder from transport.go.  The sink and the underlying
transport are passed explicitly to the operations; the HeadersSkipper
interface value is an optional predicate. -/
structure TransportMarkdownRecorder where
  SkipHeaders : Option (String → List String → Bool)
  RequestPreamble : String
  RequestPostamble : String
  ResponsePreamble : String
  ResponsePostamble : String

/-- TransportMarkdownRecorder.skipHeaders from transport.go: with no skipper
configured, the nil exclusion map (modelled as the empty list); otherwise the
names of the headers the skipper accepts, collected from the header itself. -/
def skipHeadersMap (t : TransportMarkdownRecorder) (h : Header) : List String :=
  match t.SkipHeaders with
  | none => []
  | some skips => ((h.filter fun kv => skips kv.1 kv.2).map Prod.fst)

/-- The lines a single header contributes to the transcript: one
`Name: value` line per value. -/
def headerLines (k : String) (vs : List String) : String :=
  String.join (vs.map fun v => k ++ ": " ++ v ++ "\n")

/-- http.Header.WriteSubset into an in-memory builder (a builder write cannot
fail): every header whose name is not in the exclusion list contributes its
lines; received order is kept and the carriage returns the source strips with
strings.ReplaceAll are never produced. -/
def writeSubset (h : Header) (exclude : List String) : String :=
  String.join (h.map fun kv => if exclude.contains kv.1 then "" else headerLines kv.1 kv.2)

/-- An http.Request as the recorder consumes it: method, URL.RequestURI(),
headers, and the body slot. -/
structure Request where
  method : String
  requestURI : String
  header : Header
  body : Option BodyStream

/-- An http.Response as the recorder consumes it: Proto, Status, headers,
and the body slot. -/
structure Response where
  proto : String
  status : String
  header : Header
  body : Option BodyStream

/-- TransportMarkdownRecorder.recordRequest from transport.go: preamble, then
one formatted write opening the fence with `METHOD TARGET-URI`, then the
filtered header block with its blank-line terminator, then the body via
writeBody, then the fence closing, then the postamble.  Each failing write
returns its error at once.  The request with the (possibly substituted) body
slot is returned, since the source mutates `req.Body` in place. -/
def recordRequest (t : TransportMarkdownRecorder) (ok : Nat → Bool) (req : Request)
    (s : Sink) : Except GoError (Sink × Request) :=
  match Sink.write ok s t.RequestPreamble with
  | (_, some e) => .error e
  | (s1, none) =>
    match Sink.write ok s1 ("```\n" ++ req.method ++ " " ++ req.requestURI ++ "\n") with
    | (_, some e) => .error e
    | (s2, none) =>
      match Sink.write ok s2 (writeSubset req.header (skipHeadersMap t req.header) ++ "\n") with
      | (_, some e) => .error e
      | (s3, none) =>
        match writeBody ok req.body s3 with
        | .error e => .error e
        | .ok (s4, newBody, _) =>
          match Sink.write ok s4 "\n```\n" with
          | (_, some e) => .error e
          | (s5, none) =>
            match Sink.write ok s5 t.RequestPostamble with
            | (_, some e) => .error e
            | (s6, none) => .ok (s6, { req with body := newBody })

/-- TransportMarkdownRecorder.recordResponse from transport.go: the symmetric
steps for the response, with `PROTO STATUS` on the fence-opening line. -/
def recordResponse (t : TransportMarkdownRecorder) (ok : Nat → Bool) (res : Response)
    (s : Sink) : Except GoError (Sink × Response) :=
  match Sink.write ok s t.ResponsePreamble with
  | (_, some e) => .error e
  | (s1, none) =>
    match Sink.write ok s1 ("```\n" ++ res.proto ++ " " ++ res.status ++ "\n") with
    | (_, some e) => .error e
    | (s2, none) =>
      match Sink.write ok s2 (writeSubset res.header (skipHeadersMap t res.header) ++ "\n") with
      | (_, some e) => .error e
      | (s3, none) =>
        match writeBody ok res.body s3 with
        | .error e => .error e
        | .ok (s4, newBody, _) =>
          match Sink.write ok s4 "\n```\n" with
          | (_, some e) => .error e
          | (s5, none) =>
            match Sink.write ok s5 t.ResponsePostamble with
            | (_, some e) => .error e
            | (s6, none) => .ok (s6, { res with body := newBody })

/-- TransportMarkdownRecorder.RoundTrip from transport.go.  The underlying
transport (after the nil-default of `t.transport()` has been resolved) is the
function `rt`.  The Go return pair `(*http.Response, error)` is kept as a
pair of options: `return nil, err` becomes `(none, some err)` and
`return resp, nil` becomes `(some (sink, resp), none)`. -/
def RoundTrip (t : TransportMarkdownRecorder) (rt : Request → Except GoError Response)
    (ok : Nat → Bool) (req : Request) (s : Sink) :
    Option (Sink × Response) × Option GoError :=
  match recordRequest t ok req s with
  | .error e => (none, some e)
  | .ok (s1, req1) =>
    match rt req1 with
    | .error e => (none, some e)
    | .ok resp =>
      match recordResponse t ok resp s1 with
      | .error e => (none, some e)
      | .ok (s2, resp2) => (some (s2, resp2), none)

/-- The empty sink. -/
def sink0 : Sink := { out := [], count := 0 }

/-- An oracle under which every write attempt succeeds. -/
def okAll : Nat → Bool := fun _ => true

/-
  Part 2: the struct-table renderer.  reflect.Type is embedded as GoType:
  all boolean kinds collapse to goBool, all integer and floating-point kinds
  to goNumber (the renderer never distinguishes them), Array and Slice to
  goArray, and every kind the renderer rejects (map, func, chan, interface)
  to goOther carrying the name the error message would show.  A struct type
  carries its name ("" when anonymous) and its fields; a field carries its
  declared name, its `doc`, `json` and `help` tags, and its type.
-/

mutual
inductive GoType where
  | goBool : GoType
  | goNumber : GoType
  | goString : GoType
  | goPtr : GoType → GoType
  | goArray : GoType → GoType
  | goStruct : String → List GoField → GoType
  | goOther : String → GoType

inductive GoField where
  | mk : String → Option String → Option String → Option String → GoType → GoField
end

/-- The declared field name (reflect.StructField.Name). -/
def GoField.fname : GoField → String
  | .mk n _ _ _ _ => n

/-- The field's `doc` tag, when present (f.Tag.Lookup of doc). -/
def GoField.docTag : GoField → Option String
  | .mk _ d _ _ _ => d

/-- The field's `json` tag, when present. -/
def GoField.jsonTag : GoField → Option String
  | .mk _ _ j _ _ => j

/-- The field's `help` tag, when present. -/
def GoField.helpTag : GoField → Option String
  | .mk _ _ _ h _ => h

/-- The field's declared type (reflect.StructField.Type). -/
def GoField.ftype : GoField → GoType
  | .mk _ _ _ _ t => t

/-- Markdown.structDescription: f.Tag.Get of help, the empty string when the
tag is absent. -/
def structDescription (f : GoField) : String := f.helpTag.getD ""

/-- The helper `contains` at the bottom of the renderer source. -/
def contains (array : List String) (element : String) : Bool :=
  array.any fun elt => elt == element

/-- The tag writeStructField resolves: f.Tag.Lookup of doc when present,
otherwise f.Tag.Get of json (empty when absent). -/
def fieldTag (f : GoField) : String :=
  match f.docTag with
  | some tagv => tagv
  | none => f.jsonTag.getD ""

/-- Splitting a character list at every comma; the result always has at
least one (possibly empty) piece. -/
def splitCommaChars : List Char → List (List Char)
  | [] => [[]]
  | c :: rest =>
    if c = ',' then [] :: splitCommaChars rest
    else
      match splitCommaChars rest with
      | [] => [[c]]
      | l :: ls => (c :: l) :: ls

/-- strings.Split of a string on the comma separator. -/
def stringsSplitComma (s : String) : List String :=
  (splitCommaChars s.data).map String.mk

/-- strings.Split of the resolved tag on commas, as writeStructField does. -/
def fieldParts (f : GoField) : List String := stringsSplitComma (fieldTag f)

/-- Markdown.structFieldName: the first tag part when non-empty and not the
skip sentinel, otherwise the declared field name. -/
def structFieldName (f : GoField) (parts : List String) : String :=
  match parts with
  | p :: _ => if p != "" && p != "-" then p else f.fname
  | [] => f.fname

/-- Markdown.structFieldType: classify a field type into the rendered Type
cell, unwrapping pointers, with anonymous or embed-tagged structs rendered
as Object and named structs rendered under their own name. -/
def structFieldType : GoType → List String → Except GoError String
  | .goBool, _ => .ok "bool"
  | .goNumber, _ => .ok "number"
  | .goArray _, _ => .ok "Array"
  | .goPtr t, parts => structFieldType t parts
  | .goString, _ => .ok "string"
  | .goStruct nm _, parts =>
    if nm == "" || contains parts "embed" then .ok "Object" else .ok nm
  | .goOther nm, _ => .error (.unsupportedType nm)

/-- strings.Join with a separator between consecutive elements. -/
def stringsJoin (sep : String) : List String → String
  | [] => ""
  | [x] => x
  | x :: rest => x ++ sep ++ stringsJoin sep rest

/-- Markdown.structFieldAttributes: the parenthesised space-joined flag list,
empty when no flag applies. -/
def structFieldAttributes (readonly optional : Bool) : String :=
  let result := (if readonly then ["readonly"] else []) ++
    (if optional then ["optional"] else [])
  if result.isEmpty then "" else "(" ++ stringsJoin " " result ++ ")"

/-- The full rendered name of a field: accumulated prefix plus resolved name. -/
def fieldName (pfx : String) (f : GoField) : String :=
  pfx ++ structFieldName f (fieldParts f)

/-- The row writeStructField emits, following the format string
`| %s | %s %s | %s |` with a newline: note the space between the Type cell
value and the attributes is printed even when the attributes are empty. -/
def fieldRow (pfx : String) (f : GoField) (sType : String) : String :=
  "| " ++ fieldName pfx f ++ " | " ++ sType ++ " " ++
    structFieldAttributes (contains (fieldParts f) "readonly")
      (contains (fieldParts f) "omitempty") ++
    " | " ++ structDescription f ++ " |\n"

/-- The loop at the head of Markdown.writeStructFields: `v = v.Elem()` until
a struct kind is reached.  Elem is defined for pointers, arrays and slices;
on any other kind reflect panics, modelled as none. -/
def unwrapToStruct : GoType → Option (String × List GoField)
  | .goStruct n fs => some (n, fs)
  | .goPtr t => unwrapToStruct t
  | .goArray t => unwrapToStruct t
  | _ => none

def unwrapToStruct_sizeOf : ∀ (v : GoType) {n : String} {fs : List GoField},
    unwrapToStruct v = some (n, fs) → sizeOf fs < sizeOf v
  | .goPtr t, n, fs, h => by
    simp only [unwrapToStruct] at h
    have := unwrapToStruct_sizeOf t h
    simp only [GoType.goPtr.sizeOf_spec]
    omega
  | .goArray t, n, fs, h => by
    simp only [unwrapToStruct] at h
    have := unwrapToStruct_sizeOf t h
    simp only [GoType.goArray.sizeOf_spec]
    omega
  | .goStruct nm fields, n, fs, h => by
    simp only [unwrapToStruct, Option.some.injEq, Prod.mk.injEq] at h
    obtain ⟨h1, h2⟩ := h
    subst h2
    simp only [GoType.goStruct.sizeOf_spec]
    omega
  | .goBool, n, fs, h => by simp [unwrapToStruct] at h
  | .goNumber, n, fs, h => by simp [unwrapToStruct] at h
  | .goString, n, fs, h => by simp [unwrapToStruct] at h
  | .goOther nm, n, fs, h => by simp [unwrapToStruct] at h

def GoField.sizeOf_ftype (f : GoField) : sizeOf f.ftype < sizeOf f := by
  cases f with
  | mk a b c d t => simp [GoField.ftype]

mutual
/-- Markdown.writeStructFields: unwrap the type to a struct (reflect panics,
modelled as an error, when that is impossible), then visit the fields in
declaration order; the source's for-loop over the fields is the separate
function writeFieldsLoop. -/
def writeStructFields (ok : Nat → Bool) (pfx : String) (v : GoType) (s : Sink) :
    Except GoError Sink :=
  match hu : unwrapToStruct v with
  | none => .error .elemOfNonStruct
  | some (_, fs) => writeFieldsLoop ok pfx fs s
termination_by sizeOf v
decreasing_by exact unwrapToStruct_sizeOf v hu

/-- The field loop of Markdown.writeStructFields: each field in order, the
first error aborting. -/
def writeFieldsLoop (ok : Nat → Bool) (pfx : String) (fs : List GoField) (s : Sink) :
    Except GoError Sink :=
  match fs with
  | [] => .ok s
  | f :: rest =>
    match writeStructField ok pfx f s with
    | .error e => .error e
    | .ok s1 => writeFieldsLoop ok pfx rest s1
termination_by sizeOf fs
decreasing_by
  all_goals simp
  all_goals omega

/-- Markdown.writeStructField: resolve the tag parts, classify the type
(aborting on an unsupported type), write the row, and when the classification
came out Object or Array recurse into the field's type with the extended
name prefixed by a dot or a bracket-dot join. -/
def writeStructField (ok : Nat → Bool) (pfx : String) (f : GoField) (s : Sink) :
    Except GoError Sink :=
  match structFieldType f.ftype (fieldParts f) with
  | .error e => .error e
  | .ok sType =>
    match Sink.write ok s (fieldRow pfx f sType) with
    | (_, some e) => .error e
    | (s1, none) =>
      if sType == "Object" || sType == "Array" then
        writeStructFields ok
          (fieldName pfx f ++ (if sType == "Object" then "." else "[]."))
          f.ftype s1
      else .ok s1
termination_by sizeOf f
decreasing_by exact GoField.sizeOf_ftype f
end

/-- The pointer unwrapping at the head of Markdown.WriteStructTable. -/
def unwrapPtr : GoType → GoType
  | .goPtr t => unwrapPtr t
  | t => t

/-- The fixed table header written by Markdown.WriteStructTable. -/
def tableHeader : String :=
  "\n| Field | Type | Description |\n| ----- | ---- | ----------- |\n"

/-- Markdown.WriteStructTable: unwrap pointers on the root type, write the
header, then render the fields with the empty name prefix. -/
def WriteStructTable (ok : Nat → Bool) (v : GoType) (s : Sink) : Except GoError Sink :=
  match Sink.write ok s tableHeader with
  | (_, some e) => .error e
  | (s1, none) => writeStructFields ok "" (unwrapPtr v) s1

/-
  The spec-side description of the rendered rows, following the words of the
  ordering guarantee: rows appear in field declaration order, depth-first;
  the row of a field classified Object is immediately followed by the rows of
  its own fields under the dot-extended name, the row of a field classified
  Array by the rows of its element type under the bracket-dot-extended name,
  and only after those do the rows of the following sibling fields appear.
-/

mutual
/-- Rows of a record type: the rows of its fields in declaration order,
failing on a type that does not unwrap to a struct. -/
def typeRows (pfx : String) (v : GoType) : Except GoError (List String) :=
  match hu : unwrapToStruct v with
  | none => .error .elemOfNonStruct
  | some (_, fs) => fieldsRows pfx fs
termination_by sizeOf v
decreasing_by exact unwrapToStruct_sizeOf v hu

/-- Rows of a field list: each field's rows in declaration order. -/
def fieldsRows (pfx : String) (fs : List GoField) : Except GoError (List String) :=
  match fs with
  | [] => .ok []
  | f :: rest =>
    match fieldRows pfx f with
    | .error e => .error e
    | .ok r1 =>
      match fieldsRows pfx rest with
      | .error e => .error e
      | .ok r2 => .ok (r1 ++ r2)
termination_by sizeOf fs
decreasing_by
  all_goals simp
  all_goals omega

/-- Rows of one field: its own row, immediately followed, when it is
classified Object or Array, by the rows of its type under the extended
name. -/
def fieldRows (pfx : String) (f : GoField) : Except GoError (List String) :=
  match structFieldType f.ftype (fieldParts f) with
  | .error e => .error e
  | .ok sType =>
    if sType == "Object" || sType == "Array" then
      match typeRows (fieldName pfx f ++ (if sType == "Object" then "." else "[]."))
          f.ftype with
      | .error e => .error e
      | .ok rs => .ok (fieldRow pfx f sType :: rs)
    else .ok [fieldRow pfx f sType]
termination_by sizeOf f
decreasing_by exact GoField.sizeOf_ftype f
end

/-
  Concrete fixtures for the closed evaluations below.
-/

/-- A concrete recorder with no header skipper. -/
def recC : TransportMarkdownRecorder :=
  { SkipHeaders := none, RequestPreamble := "REQ<", RequestPostamble := ">REQ",
    ResponsePreamble := "RES<", ResponsePostamble := ">RES" }

/-- A concrete recorder whose fixed skip list contains only Date. -/
def recDate : TransportMarkdownRecorder :=
  { SkipHeaders := some (SkipHeadersImpl ["Date"]), RequestPreamble := "",
    RequestPostamble := "", ResponsePreamble := "", ResponsePostamble := "" }

/-- A concrete bodyless GET request. -/
def reqNoBody : Request :=
  { method := "GET", requestURI := "/x", header := [], body := none }

/-- A concrete GET request whose body reads to `abc`. -/
def reqWithBody : Request :=
  { method := "GET", requestURI := "/x", header := [],
    body := some { content := "abc", readOk := true } }

/-- A concrete bodyless 200 response. -/
def respC : Response :=
  { proto := "HTTP/1.1", status := "200 OK", header := [], body := none }

/-- An oracle failing every write attempt. -/
def okNone : Nat → Bool := fun _ => false

/-- An oracle succeeding on the first five write attempts only. -/
def okLt5 : Nat → Bool := fun n => decide (n < 5)

/-- An oracle failing exactly the write attempt of index 3. -/
def okNot3 : Nat → Bool := fun n => !(n == 3)

/-- First scenario field: a plain string field. -/
def fldHello : GoField := .mk "Hello" none none none .goString

/-- Second scenario field: a plain numeric field. -/
def fldWorld : GoField := .mk "World" none none none .goNumber

/-- First field of the nested scenario record: numeric. -/
def fldNHello : GoField := .mk "Hello" none none none .goNumber

/-- Second field of the nested scenario record: string. -/
def fldNWorld : GoField := .mk "World" none none none .goString

/-- The nested scenario record: a pointer to an anonymous two-field record. -/
def objNested : GoType := .goPtr (.goStruct "" [fldNHello, fldNWorld])

/-- Third scenario field: the nested record, carrying a help description. -/
def fldObj : GoField := .mk "Obj" none none (some "nested") objNested

/-- The record type of the specification scenario: two primitive fields and
a pointer to an anonymous nested record carrying a help description. -/
def vScenario : GoType := .goStruct "Example" [fldHello, fldWorld, fldObj]

/-- The rows the scenario renders, in depth-first declaration order. -/
def rowsScenario : List String :=
  ["| Hello | string  |  |\n",
   "| World | number  |  |\n",
   "| Obj | Object  | nested |\n",
   "| Obj.Hello | number  |  |\n",
   "| Obj.World | string  |  |\n"]

/-
  Theorems.
-/

/-- Under the always-succeeding oracle a write appends its chunk. -/
theorem Sink.write_okAll (s : Sink) (d : String) :
    Sink.write okAll s d = ({ out := s.out ++ [d], count := s.count + 1 }, none) := rfl

/-- A write whose reported error is none is a successful append. -/
theorem Sink.write_of_snd_none (ok : Nat → Bool) (s : Sink) (d : String)
    (h : (Sink.write ok s d).2 = none) :
    Sink.write ok s d = ({ out := s.out ++ [d], count := s.count + 1 }, none) := by
  unfold Sink.write at h ⊢
  by_cases hc : ok s.count = true
  · rw [if_pos hc]
  · rw [if_neg hc] at h
    simp at h

theorem goTypeSizeOf_pos (v : GoType) : 1 ≤ sizeOf v := by
  cases v <;> simp <;> omega

theorem goFieldSizeOf_pos (f : GoField) : 1 ≤ sizeOf f := by
  cases f with
  | mk a b c d t => simp; omega

theorem listGoField_one_le_sizeOf (fs : List GoField) : 1 ≤ sizeOf fs := by
  cases fs <;> simp <;> omega

/-- Under the always-succeeding oracle the renderer appends exactly the
spec-side rows and nothing else, for types, field lists and single fields
alike. -/
theorem rows_agree : ∀ N : Nat,
    (∀ v : GoType, sizeOf v ≤ N → ∀ pfx s rows, typeRows pfx v = .ok rows →
      writeStructFields okAll pfx v s =
        .ok { out := s.out ++ rows, count := s.count + rows.length }) ∧
    (∀ fs : List GoField, sizeOf fs ≤ N → ∀ pfx s rows, fieldsRows pfx fs = .ok rows →
      writeFieldsLoop okAll pfx fs s =
        .ok { out := s.out ++ rows, count := s.count + rows.length }) ∧
    (∀ f : GoField, sizeOf f ≤ N → ∀ pfx s rows, fieldRows pfx f = .ok rows →
      writeStructField okAll pfx f s =
        .ok { out := s.out ++ rows, count := s.count + rows.length }) := by
  intro N
  induction N with
  | zero =>
    refine ⟨fun v hv => ?_, fun fs hfs => ?_, fun f hf => ?_⟩
    · exact absurd hv (by have := goTypeSizeOf_pos v; omega)
    · exact absurd hfs (by have := listGoField_one_le_sizeOf fs; omega)
    · exact absurd hf (by have := goFieldSizeOf_pos f; omega)
  | succ N ih =>
    obtain ⟨ihT, ihFs, ihF⟩ := ih
    refine ⟨fun v hv pfx s rows hrows => ?_, fun fs hfs pfx s rows hrows => ?_,
      fun f hf pfx s rows hrows => ?_⟩
    · rw [typeRows.eq_def] at hrows
      rw [writeStructFields.eq_def]
      rcases hu : unwrapToStruct v with _ | ⟨n, fs⟩
      · rw [hu] at hrows
        exact absurd hrows (by simp)
      · rw [hu] at hrows
        have hsz : sizeOf fs ≤ N := by
          have := unwrapToStruct_sizeOf v hu
          omega
        exact ihFs fs hsz pfx s rows hrows
    · rcases fs with _ | ⟨f, rest⟩
      · simp only [fieldsRows, Except.ok.injEq] at hrows
        subst hrows
        simp [writeFieldsLoop]
      · simp only [fieldsRows] at hrows
        simp only [writeFieldsLoop]
        have hszf : sizeOf f ≤ N := by simp at hfs; omega
        have hszr : sizeOf rest ≤ N := by simp at hfs; omega
        rcases h1 : fieldRows pfx f with e | r1
        · rw [h1] at hrows
          exact absurd hrows (by simp)
        · rw [h1] at hrows
          rcases h2 : fieldsRows pfx rest with e | r2
          · rw [h2] at hrows
            exact absurd hrows (by simp)
          · rw [h2] at hrows
            simp only [Except.ok.injEq] at hrows
            subst hrows
            rw [ihF f hszf pfx s r1 h1]
            show writeFieldsLoop okAll pfx rest
              { out := s.out ++ r1, count := s.count + r1.length } = _
            rw [ihFs rest hszr pfx { out := s.out ++ r1, count := s.count + r1.length } r2 h2]
            simp only [Except.ok.injEq, Sink.mk.injEq]
            constructor
            · simp [List.append_assoc]
            · simp
              omega
    · rw [fieldRows.eq_def] at hrows
      rw [writeStructField.eq_def]
      rcases ht : structFieldType f.ftype (fieldParts f) with e | sType
      · rw [ht] at hrows
        exact absurd hrows (by simp)
      · rw [ht] at hrows
        simp only at hrows ⊢
        rw [Sink.write_okAll]
        simp only
        by_cases hobj : (sType == "Object" || sType == "Array") = true
        · rw [if_pos hobj] at hrows ⊢
          rcases h1 : typeRows
              (fieldName pfx f ++ (if sType == "Object" then "." else "[]."))
              f.ftype with e | rs
          · rw [h1] at hrows
            exact absurd hrows (by simp)
          · rw [h1] at hrows
            simp only [Except.ok.injEq] at hrows
            subst hrows
            have hsz : sizeOf f.ftype ≤ N := by
              have := GoField.sizeOf_ftype f
              omega
            rw [ihT f.ftype hsz _ _ rs h1]
            simp only [Except.ok.injEq, Sink.mk.injEq]
            constructor
            · simp
            · simp
              omega
        · rw [if_neg hobj] at hrows ⊢
          simp only [Except.ok.injEq] at hrows
          subst hrows
          simp


/-- Unfolding step for typeRows: once the type unwraps to a struct, its rows
are the rows of the struct's fields. -/
theorem typeRows_unwraps (pfx : String) (v : GoType) (nm : String) (fs : List GoField)
    (h : unwrapToStruct v = some (nm, fs)) :
    typeRows pfx v = fieldsRows pfx fs := by
  rw [typeRows.eq_def, h]

/-- Unfolding step for fieldsRows on the empty field list. -/
theorem fieldsRows_nil (pfx : String) : fieldsRows pfx [] = .ok [] := by
  simp [fieldsRows]

/-- Unfolding step for fieldsRows on a field list: the head field's rows
followed by the remaining fields' rows. -/
theorem fieldsRows_cons (pfx : String) (f : GoField) (rest : List GoField)
    (r1 r2 : List String) (h1 : fieldRows pfx f = .ok r1)
    (h2 : fieldsRows pfx rest = .ok r2) :
    fieldsRows pfx (f :: rest) = .ok (r1 ++ r2) := by
  simp only [fieldsRows, h1, h2]

/-- Unfolding step for fieldRows on a field classified neither Object nor
Array: exactly its own row. -/
theorem fieldRows_leaf (pfx : String) (f : GoField) (sType : String)
    (h : structFieldType f.ftype (fieldParts f) = .ok sType)
    (hne : (sType == "Object" || sType == "Array") = false) :
    fieldRows pfx f = .ok [fieldRow pfx f sType] := by
  rw [fieldRows.eq_def, h]
  simp only [hne]
  simp

/-- Unfolding step for fieldRows on a field classified Object: its own row
immediately followed by the rows of its type under the dot-extended name. -/
theorem fieldRows_object (pfx : String) (f : GoField) (rs : List String)
    (h : structFieldType f.ftype (fieldParts f) = .ok "Object")
    (hrows : typeRows (fieldName pfx f ++ ".") f.ftype = .ok rs) :
    fieldRows pfx f = .ok (fieldRow pfx f "Object" :: rs) := by
  rw [fieldRows.eq_def, h]
  simp [hrows]

/-- Claim C1, counterexample: at this input the request-record phase
succeeds, the underlying transport succeeds, recording the response fails
with the write error of attempt 5 — and RoundTrip returns a nil response
paired with that error, not the non-nil response the claim asserts. -/
theorem c1_counterexample :
    recordRequest recC okLt5 reqNoBody sink0 =
      .ok ({ out := ["REQ<", "```\nGET /x\n", "\n", "\n```\n", ">REQ"], count := 5 },
        reqNoBody) ∧
    recordResponse recC okLt5 respC
      { out := ["REQ<", "```\nGET /x\n", "\n", "\n```\n", ">REQ"], count := 5 } =
      .error (.writeErr 5) ∧
    RoundTrip recC (fun _ => .ok respC) okLt5 reqNoBody sink0 =
      (none, some (.writeErr 5)) :=
  ⟨rfl, rfl, rfl⟩

/-- Claim C1, amended: when the request-record phase succeeds, the underlying
transport call succeeds and recording the response to the sink fails, then
RoundTrip surfaces the recording error but drops the already-obtained
response: it returns a nil response paired with that error. -/
theorem c1_nil_response_with_record_error
    (t : TransportMarkdownRecorder) (rt : Request → Except GoError Response)
    (ok : Nat → Bool) (req req1 : Request) (s s1 : Sink) (resp : Response) (e : GoError)
    (h1 : recordRequest t ok req s = .ok (s1, req1))
    (h2 : rt req1 = .ok resp)
    (h3 : recordResponse t ok resp s1 = .error e) :
    RoundTrip t rt ok req s = (none, some e) := by
  simp [RoundTrip, h1, h2, h3]

/-- Claim C1, witness for the amended theorem at a concrete input. -/
theorem c1_nil_response_with_record_error_witness :
    RoundTrip recC (fun _ => .ok respC) okLt5 reqNoBody sink0 =
      (none, some (.writeErr 5)) :=
  c1_nil_response_with_record_error recC (fun _ => .ok respC) okLt5 reqNoBody reqNoBody
    sink0 { out := ["REQ<", "```\nGET /x\n", "\n", "\n```\n", ">REQ"], count := 5 }
    respC (.writeErr 5) rfl rfl rfl

/-- Claim C3, divergence of the code at the body write: with a sink whose
write attempt fails (its error being the write error of attempt 0), writeBody
nevertheless returns success — the write error is replaced by nil instead of
being returned verbatim, and the stream is neither closed nor substituted. -/
theorem c3_body_write_error_swallowed :
    (Sink.write okNone sink0 "abc").2 = some (.writeErr 0) ∧
    writeBody okNone (some { content := "abc", readOk := true }) sink0 =
      .ok ({ out := [], count := 1 },
        some { content := "abc", readOk := true }, false) :=
  ⟨rfl, rfl⟩

/-- Claim C4: body capture and replay.  With no body present nothing is
written and nothing is substituted; with a readable body present and a
successful sink write, the entire content is appended verbatim to the sink,
the original stream is closed, and the substituted fresh stream reads to
exactly the original content. -/
theorem c4_body_capture_replay (ok : Nat → Bool) (s : Sink) (b : BodyStream)
    (hr : b.readOk = true) (hw : (Sink.write ok s b.content).2 = none) :
    writeBody ok none s = .ok (s, none, false) ∧
    writeBody ok (some b) s =
      .ok ({ out := s.out ++ [b.content], count := s.count + 1 },
        some { content := b.content, readOk := true }, true) ∧
    BodyStream.readAll { content := b.content, readOk := true } = .ok b.content := by
  refine ⟨rfl, ?_, rfl⟩
  have hb : b.readAll = .ok b.content := by simp [BodyStream.readAll, hr]
  simp [writeBody, hb, Sink.write_of_snd_none ok s b.content hw]

/-- Claim C4, witness: the capture/replay theorem applied to a non-empty and
to an empty concrete body under the always-succeeding sink. -/
theorem c4_body_capture_replay_witness :
    (writeBody okAll none sink0 = .ok (sink0, none, false) ∧
     writeBody okAll (some { content := "abc", readOk := true }) sink0 =
       .ok ({ out := ["abc"], count := 1 },
         some { content := "abc", readOk := true }, true) ∧
     BodyStream.readAll { content := "abc", readOk := true } = .ok "abc") ∧
    (writeBody okAll (some { content := "", readOk := true }) sink0 =
       .ok ({ out := [""], count := 1 },
         some { content := "", readOk := true }, true) ∧
     BodyStream.readAll { content := "", readOk := true } = .ok "") :=
  ⟨c4_body_capture_replay okAll sink0 { content := "abc", readOk := true } rfl rfl,
   (c4_body_capture_replay okAll sink0 { content := "", readOk := true } rfl rfl).2⟩

/-- Claim C5, divergence of the code at the body write: the write attempt of
index 3 — the captured request body bytes — fails, yet RoundTrip proceeds,
invokes the underlying transport (a failing transport changes the outcome)
and returns the response with a nil error instead of a nil response with the
write error. -/
theorem c5_transport_invoked_despite_write_failure :
    (Sink.write okNot3 { out := ["REQ<", "```\nGET /x\n", "\n"], count := 3 } "abc").2 =
      some (.writeErr 3) ∧
    RoundTrip recC (fun _ => .ok respC) okNot3 reqWithBody sink0 =
      (some ({ out := ["REQ<", "```\nGET /x\n", "\n", "\n```\n", ">REQ",
        "RES<", "```\nHTTP/1.1 200 OK\n", "\n", "\n```\n", ">RES"], count := 11 },
        respC), none) ∧
    RoundTrip recC (fun _ => .error .transportErr) okNot3 reqWithBody sink0 =
      (none, some .transportErr) :=
  ⟨rfl, rfl, rfl⟩

/-- The fixed-list skipper over the singleton Date list is exactly the
case-insensitive comparison with Date. -/
theorem skipHeadersImpl_date (nm : String) (vs : List String) :
    SkipHeadersImpl ["Date"] nm vs = equalFold "Date" nm := by
  simp [SkipHeadersImpl]

/-- Membership of a header name in the exclusion map built from the Date
skip list is exactly the case-insensitive comparison with Date. -/
theorem contains_skipMap_date (h : Header) (kv : String × List String) (hkv : kv ∈ h) :
    ((h.filter fun kv2 => SkipHeadersImpl ["Date"] kv2.1 kv2.2).map Prod.fst).contains kv.1 =
      equalFold "Date" kv.1 := by
  rcases hc : equalFold "Date" kv.1 with _ | _
  · rcases hm : ((h.filter fun kv2 => SkipHeadersImpl ["Date"] kv2.1 kv2.2).map
        Prod.fst).contains kv.1 with _ | _
    · exact hm
    · exfalso
      have hmem : kv.1 ∈ (h.filter fun kv2 => SkipHeadersImpl ["Date"] kv2.1 kv2.2).map
          Prod.fst := by
        rw [← List.elem_iff]
        exact hm
      obtain ⟨kv2, hkv2, hfst⟩ := List.mem_map.mp hmem
      obtain ⟨hkv2h, hpred⟩ := List.mem_filter.mp hkv2
      rw [skipHeadersImpl_date] at hpred
      rw [hfst] at hpred
      rw [hc] at hpred
      exact Bool.false_ne_true hpred
  · have hmem : kv.1 ∈ (h.filter fun kv2 => SkipHeadersImpl ["Date"] kv2.1 kv2.2).map
        Prod.fst := by
      apply List.mem_map.mpr
      refine ⟨kv, ?_, rfl⟩
      apply List.mem_filter.mpr
      refine ⟨hkv, ?_⟩
      rw [skipHeadersImpl_date, hc]
    rw [← List.elem_iff] at hmem
    exact hmem

/-- Claim C9: the fixed-list header filter skips exactly the configured names
under case-insensitive comparison and ignores header values; with no filter
configured no header is elided; and with the skip list containing Date, the
rendered header block drops every header whose name matches Date in any
letter case while keeping all others. -/
theorem c9_header_filter :
    (∀ (sk : List String) (nm : String) (vs vs2 : List String),
      SkipHeadersImpl sk nm vs = SkipHeadersImpl sk nm vs2) ∧
    (∀ (sk : List String) (nm : String) (vs : List String),
      SkipHeadersImpl sk nm vs = true ↔ ∃ p ∈ sk, equalFold p nm = true) ∧
    (∀ t : TransportMarkdownRecorder, t.SkipHeaders = none → ∀ h : Header,
      writeSubset h (skipHeadersMap t h) =
        String.join (h.map fun kv => headerLines kv.1 kv.2)) ∧
    (∀ t : TransportMarkdownRecorder,
      t.SkipHeaders = some (SkipHeadersImpl ["Date"]) → ∀ h : Header,
      writeSubset h (skipHeadersMap t h) =
        String.join (h.map fun kv =>
          if equalFold "Date" kv.1 then "" else headerLines kv.1 kv.2)) := by
  refine ⟨fun sk nm vs vs2 => rfl, fun sk nm vs => ?_, fun t ht h => ?_, fun t ht h => ?_⟩
  · simp [SkipHeadersImpl, List.any_eq_true]
  · simp only [skipHeadersMap, ht]
    unfold writeSubset
    congr 1
  · simp only [skipHeadersMap, ht]
    unfold writeSubset
    congr 1
    apply List.map_congr_left
    intro kv hkv
    rw [contains_skipMap_date h kv hkv]

/-- Claim C9, witness: the filter theorem applied to a concrete header list
containing a mixed-case Date header, under no filter and under the Date skip
list. -/
theorem c9_header_filter_witness :
    SkipHeadersImpl ["Date"] "dAtE" ["v"] = SkipHeadersImpl ["Date"] "dAtE" [] ∧
    (SkipHeadersImpl ["Date"] "dAtE" ["v"] = true ↔
      ∃ p ∈ ["Date"], equalFold p "dAtE" = true) ∧
    writeSubset [("dAtE", ["v"]), ("X", ["y"])]
      (skipHeadersMap recC [("dAtE", ["v"]), ("X", ["y"])]) =
      String.join ([("dAtE", ["v"]), ("X", ["y"])].map fun kv =>
        headerLines kv.1 kv.2) ∧
    writeSubset [("dAtE", ["v"]), ("X", ["y"])]
      (skipHeadersMap recDate [("dAtE", ["v"]), ("X", ["y"])]) =
      String.join ([("dAtE", ["v"]), ("X", ["y"])].map fun kv =>
        if equalFold "Date" kv.1 then "" else headerLines kv.1 kv.2) :=
  ⟨c9_header_filter.1 ["Date"] "dAtE" ["v"] [],
   c9_header_filter.2.1 ["Date"] "dAtE" ["v"],
   c9_header_filter.2.2.1 recC rfl [("dAtE", ["v"]), ("X", ["y"])],
   c9_header_filter.2.2.2 recDate rfl [("dAtE", ["v"]), ("X", ["y"])]⟩

/-- Classification looks through pointers: a type classifies exactly as its
pointer-unwrapped form. -/
theorem structFieldType_unwrapPtr : ∀ (t : GoType) (parts : List String),
    structFieldType t parts = structFieldType (unwrapPtr t) parts
  | .goPtr t, parts => by
    simp only [unwrapPtr, structFieldType]
    exact structFieldType_unwrapPtr t parts
  | .goBool, _ => rfl
  | .goNumber, _ => rfl
  | .goString, _ => rfl
  | .goArray t, _ => rfl
  | .goStruct nm fs, _ => rfl
  | .goOther nm, _ => rfl

/-- Claim C2, counterexample: a field whose pointer-unwrapped type is the
named record type MyType without the embed flag renders the type's own name
as the Type cell of WriteStructTable, not the string Object. -/
theorem c2_counterexample :
    WriteStructTable okAll
      (.goStruct "Root" [.mk "F" none none none (.goStruct "MyType" [])]) sink0 =
      .ok { out := [tableHeader, "| F | MyType  |  |\n"], count := 2 } ∧
    ("MyType" : String) ≠ "Object" := by
  constructor
  · simp [WriteStructTable, unwrapPtr, writeStructFields, writeFieldsLoop,
      writeStructField, structFieldType, fieldParts, fieldTag, GoField.ftype,
      GoField.docTag, GoField.jsonTag, GoField.helpTag, GoField.fname, fieldRow,
      fieldName, structFieldName, structFieldAttributes, stringsJoin,
      structDescription, contains, Sink.write, okAll, sink0, unwrapToStruct,
      stringsSplitComma, splitCommaChars]
  · decide

/-- Claim C2, amended: for a field whose pointer-unwrapped type is a named
record type and whose tag lacks the embed flag, the Type cell is the type's
own name; the cell is the string Object exactly for anonymous record types
and for embed-tagged fields. -/
theorem c2_named_type_cell (t : GoType) (nm : String) (fs : List GoField)
    (parts : List String) (hu : unwrapPtr t = .goStruct nm fs)
    (hnm : nm ≠ "") (hembed : contains parts "embed" = false) :
    structFieldType t parts = .ok nm ∧
    (∀ (fs2 : List GoField) (parts2 : List String),
      structFieldType (.goStruct "" fs2) parts2 = .ok "Object") ∧
    (∀ (nm2 : String) (fs2 : List GoField) (parts2 : List String),
      contains parts2 "embed" = true →
      structFieldType (.goStruct nm2 fs2) parts2 = .ok "Object") := by
  refine ⟨?_, fun fs2 parts2 => by simp [structFieldType],
    fun nm2 fs2 parts2 he => by simp [structFieldType, he]⟩
  rw [structFieldType_unwrapPtr, hu]
  simp [structFieldType, hembed, hnm]

/-- Claim C2, witness for the amended theorem: a pointer to the named record
type T classifies as T. -/
theorem c2_named_type_cell_witness :
    unwrapPtr (.goPtr (.goStruct "T" [])) = GoType.goStruct "T" [] ∧
    structFieldType (.goPtr (.goStruct "T" [])) [""] = .ok "T" :=
  ⟨rfl, (c2_named_type_cell (.goPtr (.goStruct "T" [])) "T" [] [""] rfl
    (by decide) rfl).1⟩

/-- Claim C7: the tag writeStructField resolves comes from the doc tag when
present, else from the json tag, else is empty; the parts are its
comma-split; and the rendered name is the first part when present, non-empty
and not the skip sentinel, else the declared field name verbatim. -/
theorem c7_tag_precedence_and_name :
    (∀ (nm dv : String) (jv hv : Option String) (ty : GoType),
      fieldTag (.mk nm (some dv) jv hv ty) = dv) ∧
    (∀ (nm jv : String) (hv : Option String) (ty : GoType),
      fieldTag (.mk nm none (some jv) hv ty) = jv) ∧
    (∀ (nm : String) (hv : Option String) (ty : GoType),
      fieldTag (.mk nm none none hv ty) = "") ∧
    (∀ f : GoField, fieldParts f = stringsSplitComma (fieldTag f)) ∧
    (∀ (f : GoField) (parts : List String),
      structFieldName f parts =
        match parts.head? with
        | some p => if p ≠ "" ∧ p ≠ "-" then p else f.fname
        | none => f.fname) := by
  refine ⟨fun nm dv jv hv ty => rfl, fun nm jv hv ty => rfl, fun nm hv ty => rfl,
    fun f => rfl, fun f parts => ?_⟩
  cases parts with
  | nil => rfl
  | cons p rest =>
    simp only [structFieldName, List.head?]
    by_cases h1 : p = ""
    · subst h1
      simp
    · by_cases h2 : p = "-"
      · subst h2
        simp
      · simp [h1, h2]

/-- Claim C8, counterexample: for a field with neither flag the space before
the omitted attributes is not omitted from the row — the rendered Type cell
keeps two spaces before its closing bar. -/
theorem c8_counterexample :
    writeStructField okAll "" (.mk "H" none none none .goString) sink0 =
      .ok { out := ["| H | string  |  |\n"], count := 1 } ∧
    ("| H | string  |  |\n" : String) ≠ "| H | string |  |\n" := by
  constructor
  · simp [writeStructField, structFieldType, fieldParts, fieldTag, GoField.ftype,
      GoField.docTag, GoField.jsonTag, GoField.helpTag, GoField.fname, fieldRow,
      fieldName, structFieldName, structFieldAttributes, stringsJoin,
      structDescription, contains, Sink.write, okAll, sink0,
      stringsSplitComma, splitCommaChars]
  · decide

/-- Claim C8, amended: the attributes render as readonly before optional in a
fixed order, with only the present flags, and empty when neither flag
applies; in that case the parenthetical disappears from the row but the
space separating the Type cell value from it remains. -/
theorem c8_attributes_fixed_order :
    (∀ r o : Bool, structFieldAttributes r o =
      if r then (if o then "(readonly optional)" else "(readonly)")
      else (if o then "(optional)" else "")) ∧
    (∀ (pfx : String) (f : GoField) (sType : String),
      contains (fieldParts f) "readonly" = false →
      contains (fieldParts f) "omitempty" = false →
      fieldRow pfx f sType =
        "| " ++ fieldName pfx f ++ " | " ++ sType ++ "  | " ++
          structDescription f ++ " |\n") ∧
    writeStructField okAll ""
      (.mk "F" (some "F,readonly,omitempty") none none .goString) sink0 =
      .ok { out := ["| F | string (readonly optional) |  |\n"], count := 1 } := by
  refine ⟨fun r o => by cases r <;> cases o <;> rfl, fun pfx f sType h1 h2 => ?_, ?_⟩
  · unfold fieldRow
    rw [h1, h2]
    rw [show structFieldAttributes false false = "" from rfl]
    rw [String.append_empty]
    rw [String.append_assoc ("| " ++ fieldName pfx f ++ " | " ++ sType) " " " | "]
    congr 1
  · simp [writeStructField, structFieldType, fieldParts, fieldTag, GoField.ftype,
      GoField.docTag, GoField.jsonTag, GoField.helpTag, GoField.fname, fieldRow,
      fieldName, structFieldName, structFieldAttributes, stringsJoin,
      structDescription, contains, Sink.write, okAll, sink0,
      stringsSplitComma, splitCommaChars]

/-- Claim C8, witness for the amended theorem: both-flags attributes and the
flagless row of a concrete field. -/
theorem c8_attributes_fixed_order_witness :
    structFieldAttributes true true = "(readonly optional)" ∧
    fieldRow "" (.mk "G" none none none .goString) "string" =
      "| " ++ fieldName "" (.mk "G" none none none .goString) ++ " | " ++ "string" ++
        "  | " ++ structDescription (.mk "G" none none none .goString) ++ " |\n" :=
  ⟨c8_attributes_fixed_order.1 true true,
   c8_attributes_fixed_order.2.1 "" (.mk "G" none none none .goString) "string" rfl rfl⟩

/-- Claim C10, counterexample: a field whose pointer-unwrapped type is a
named record type literally called Object, without the embed flag, is not
rendered as a single row — the renderer recurses and the named type's own
field X appears in the table. -/
theorem c10_counterexample :
    writeStructField okAll ""
      (.mk "F" none none none
        (.goStruct "Object" [.mk "X" none none none .goString])) sink0 =
      .ok { out := ["| F | Object  |  |\n", "| F.X | string  |  |\n"], count := 2 } := by
  simp [writeStructField, writeStructFields, writeFieldsLoop, structFieldType,
    fieldParts, fieldTag, GoField.ftype, GoField.docTag, GoField.jsonTag,
    GoField.helpTag, GoField.fname, fieldRow, fieldName, structFieldName,
    structFieldAttributes, stringsJoin, structDescription, contains, Sink.write,
    okAll, sink0, unwrapToStruct, stringsSplitComma, splitCommaChars]

/-- Claim C10, amended: for a field whose pointer-unwrapped type is a named
record type whose name is neither Object nor Array, without the embed flag,
writeStructField emits exactly the one row of that field and never recurses
into the named type; a named record type literally called Object or Array is
the exception, treated as if classified Object or Array. -/
theorem c10_named_struct_single_row (ok : Nat → Bool) (pfx : String) (f : GoField)
    (nm : String) (fs : List GoField) (s s1 : Sink)
    (hu : unwrapPtr f.ftype = .goStruct nm fs)
    (hnm : nm ≠ "") (hobj : nm ≠ "Object") (harr : nm ≠ "Array")
    (hembed : contains (fieldParts f) "embed" = false)
    (hw : Sink.write ok s (fieldRow pfx f nm) = (s1, none)) :
    writeStructField ok pfx f s = .ok s1 ∧
    fieldRows pfx f = .ok [fieldRow pfx f nm] := by
  have ht : structFieldType f.ftype (fieldParts f) = .ok nm := by
    rw [structFieldType_unwrapPtr, hu]
    simp [structFieldType, hembed, hnm]
  have hcond : (nm == "Object" || nm == "Array") = false := by
    simp [hobj, harr]
  constructor
  · rw [writeStructField.eq_def, ht]
    simp only
    rw [hw]
    simp only [hcond]
    simp
  · rw [fieldRows.eq_def, ht]
    simp only [hcond]
    simp

/-- Claim C10, witness for the amended theorem: a field of the named record
type T produces exactly its own row and none of the rows of T's fields. -/
theorem c10_named_struct_single_row_witness :
    writeStructField okAll ""
      (.mk "F" none none none
        (.goStruct "T" [.mk "X" none none none .goString])) sink0 =
      .ok { out := ["| F | T  |  |\n"], count := 1 } ∧
    fieldRows ""
      (.mk "F" none none none
        (.goStruct "T" [.mk "X" none none none .goString])) =
      .ok ["| F | T  |  |\n"] := by
  have h := c10_named_struct_single_row okAll ""
    (.mk "F" none none none (.goStruct "T" [.mk "X" none none none .goString]))
    "T" [.mk "X" none none none .goString] sink0
    { out := ["| F | T  |  |\n"], count := 1 }
    rfl (by decide) (by decide) (by decide) rfl rfl
  exact ⟨h.1, h.2⟩

/-- Claim C6: the rows WriteStructTable renders are exactly the spec-side
depth-first rows — each field's row in declaration order, immediately
followed, for a field classified Object, by the rows of its own fields under
the dot-extended prefix, and, for a field classified Array, by the rows of
its element type under the bracket-dot-extended prefix, before any sibling
of the field. -/
theorem c6_rows_depth_first :
    (∀ (v : GoType) (pfx : String) (s : Sink) (rows : List String),
      typeRows pfx v = .ok rows →
      writeStructFields okAll pfx v s =
        .ok { out := s.out ++ rows, count := s.count + rows.length }) ∧
    (∀ (f : GoField) (pfx : String) (s : Sink) (rows : List String),
      fieldRows pfx f = .ok rows →
      writeStructField okAll pfx f s =
        .ok { out := s.out ++ rows, count := s.count + rows.length }) ∧
    (∀ (v : GoType) (s : Sink) (rows : List String),
      typeRows "" (unwrapPtr v) = .ok rows →
      WriteStructTable okAll v s =
        .ok { out := s.out ++ (tableHeader :: rows),
              count := s.count + (rows.length + 1) }) := by
  refine ⟨fun v pfx s rows h => (rows_agree (sizeOf v)).1 v le_rfl pfx s rows h,
    fun f pfx s rows h => (rows_agree (sizeOf f)).2.2 f le_rfl pfx s rows h,
    fun v s rows h => ?_⟩
  rw [WriteStructTable.eq_def, Sink.write_okAll]
  simp only
  rw [(rows_agree (sizeOf (unwrapPtr v))).1 (unwrapPtr v) le_rfl ""
    { out := s.out ++ [tableHeader], count := s.count + 1 } rows h]
  simp only [Except.ok.injEq, Sink.mk.injEq]
  constructor
  · simp
  · omega

/-- Claim C6, witness: the scenario record type, a record with two primitive
fields and a nested anonymous record behind a pointer, renders the header
followed by its five rows in depth-first declaration order. -/
theorem c6_rows_depth_first_witness :
    typeRows "" (unwrapPtr vScenario) = .ok rowsScenario ∧
    WriteStructTable okAll vScenario sink0 =
      .ok { out := (tableHeader :: rowsScenario), count := rowsScenario.length + 1 } := by
  have l1 : fieldRows "" fldHello = .ok ["| Hello | string  |  |\n"] :=
    fieldRows_leaf "" fldHello "string" rfl rfl
  have l2 : fieldRows "" fldWorld = .ok ["| World | number  |  |\n"] :=
    fieldRows_leaf "" fldWorld "number" rfl rfl
  have n1 : fieldRows "Obj." fldNHello = .ok ["| Obj.Hello | number  |  |\n"] :=
    fieldRows_leaf "Obj." fldNHello "number" rfl rfl
  have n2 : fieldRows "Obj." fldNWorld = .ok ["| Obj.World | string  |  |\n"] :=
    fieldRows_leaf "Obj." fldNWorld "string" rfl rfl
  have hN : typeRows "Obj." objNested =
      .ok ["| Obj.Hello | number  |  |\n", "| Obj.World | string  |  |\n"] := by
    rw [typeRows_unwraps "Obj." objNested "" [fldNHello, fldNWorld] rfl]
    exact fieldsRows_cons _ _ _ _ _ n1 (fieldsRows_cons _ _ _ _ _ n2 (fieldsRows_nil _))
  have hObj : fieldRows "" fldObj =
      .ok ["| Obj | Object  | nested |\n", "| Obj.Hello | number  |  |\n",
        "| Obj.World | string  |  |\n"] :=
    fieldRows_object "" fldObj
      ["| Obj.Hello | number  |  |\n", "| Obj.World | string  |  |\n"] rfl hN
  have h : typeRows "" (unwrapPtr vScenario) = .ok rowsScenario := by
    rw [show unwrapPtr vScenario = vScenario from rfl]
    rw [typeRows_unwraps "" vScenario "Example" [fldHello, fldWorld, fldObj] rfl]
    exact fieldsRows_cons _ _ _ _ _ l1
      (fieldsRows_cons _ _ _ _ _ l2 (fieldsRows_cons _ _ _ _ _ hObj (fieldsRows_nil _)))
  refine ⟨h, ?_⟩
  have h2 := c6_rows_depth_first.2.2 vScenario sink0 rowsScenario h
  simpa [sink0] using h2

end Autodoc
